import Mathlib

/-!
Shallow embedding of the gesture-driven 3D scene:
the zustand store (mode state machine), the MediaPipe landmark
classifier and debounce filter, the collision-aware ornament layout
generator, the polaroid grid layout, the mix interpolator and the
drag/inertia rotation controller.

Machine floating-point numbers are modelled as exact rationals.
Comparisons between Euclidean distances (all nonnegative) are modelled
by comparing their squares, which preserves the order; this avoids the
non-executable square root in the definitions while keeping every test
decidable.  Calls to the host random source are modelled by universally
quantified streams of draw records.
-/

/-- Gesture labels, from the GestureType enum in types.ts. -/
inductive GestureType where
  | FIST
  | OPEN
  | PINCH
  | VICTORY
  | NONE
deriving DecidableEq

/-- Scene display modes, from the TreeMode enum in types.ts. -/
inductive TreeMode where
  | CHAOS
  | FORMED
  | GRID
deriving DecidableEq

/-- A 2D point with rational coordinates. -/
abbrev Pt : Type := ℚ × ℚ

/-- HandState record from types.ts. -/
structure HandState where
  detected : Bool
  gesture : GestureType
  position : Pt
  landmarks : List Pt
deriving DecidableEq

/-- A partial HandState update, as passed to setHandState; a field that is
none is absent from the JavaScript object literal and is left unchanged by
the object-spread merge. -/
structure PartialHand where
  detected : Option Bool
  gesture : Option GestureType
  position : Option Pt
  landmarks : Option (List Pt)
deriving DecidableEq

/-- The object-spread merge of a partial update into the current hand
state, modelling the spread expression in setHandState in the store. -/
def mergeHand (h : HandState) (p : PartialHand) : HandState :=
  ⟨p.detected.getD h.detected, p.gesture.getD h.gesture,
   p.position.getD h.position, p.landmarks.getD h.landmarks⟩

/-- The switch statement inside setHandState: OPEN, FIST and PINCH select a
mode, every other gesture retains the current mode. -/
def modeFor (g : GestureType) (m : TreeMode) : TreeMode :=
  match g with
  | GestureType.OPEN => TreeMode.CHAOS
  | GestureType.FIST => TreeMode.FORMED
  | GestureType.PINCH => TreeMode.GRID
  | _ => m

/-- The store slice relevant to the mode state machine. -/
structure Store where
  mode : TreeMode
  handState : HandState
deriving DecidableEq

/-- setHandState from the store: merge the partial update, then derive the
new mode from the merged state when it reports a detected hand. -/
def setHandState (st : Store) (p : PartialHand) : Store :=
  let newState := mergeHand st.handState p
  let newMode := if newState.detected then modeFor newState.gesture st.mode else st.mode
  ⟨newMode, newState⟩

/-- toggleMode from the store: FORMED becomes CHAOS, every other mode
(CHAOS and also GRID) becomes FORMED; the hand state is untouched. -/
def toggleStore (st : Store) : Store :=
  ⟨if st.mode = TreeMode.FORMED then TreeMode.CHAOS else TreeMode.FORMED, st.handState⟩

/-- The store's initial value: mode FORMED, no hand detected. -/
def initialStore : Store :=
  ⟨TreeMode.FORMED, ⟨false, GestureType.NONE, (0, 0), []⟩⟩

/-- Squared planar distance between two of the 21 landmarks; the source
computes Math.hypot of the coordinate differences and only ever compares
the results, so the squares carry the same information. -/
def distSq (lms : Fin 21 → Pt) (i j : Fin 21) : ℚ :=
  ((lms i).1 - (lms j).1) ^ 2 + ((lms i).2 - (lms j).2) ^ 2

/-- Thumb extended: dist(4,0) greater than dist(3,0) times 1.1, compared as
squares (1.1 squared is 121/100). -/
def isThumbUp (lms : Fin 21 → Pt) : Bool :=
  decide (distSq lms 3 0 * (121/100) < distSq lms 4 0)

/-- Index finger extended: dist(8,0) greater than dist(6,0) times 1.1. -/
def isIndexUp (lms : Fin 21 → Pt) : Bool :=
  decide (distSq lms 6 0 * (121/100) < distSq lms 8 0)

/-- Middle finger extended: dist(12,0) greater than dist(10,0) times 1.1. -/
def isMiddleUp (lms : Fin 21 → Pt) : Bool :=
  decide (distSq lms 10 0 * (121/100) < distSq lms 12 0)

/-- Ring finger extended: dist(16,0) greater than dist(14,0) times 1.1. -/
def isRingUp (lms : Fin 21 → Pt) : Bool :=
  decide (distSq lms 14 0 * (121/100) < distSq lms 16 0)

/-- Pinky extended: dist(20,0) greater than dist(18,0) times 1.1. -/
def isPinkyUp (lms : Fin 21 → Pt) : Bool :=
  decide (distSq lms 18 0 * (121/100) < distSq lms 20 0)

/-- Number of extended fingers, incremented per predicate as in the source. -/
def fingersUp (lms : Fin 21 → Pt) : ℕ :=
  (if isThumbUp lms then 1 else 0) + (if isIndexUp lms then 1 else 0) +
  (if isMiddleUp lms then 1 else 0) + (if isRingUp lms then 1 else 0) +
  (if isPinkyUp lms then 1 else 0)

/-- Victory pose test: index and middle up, ring and pinky down, thumb
ignored. -/
def victoryPose (lms : Fin 21 → Pt) : Bool :=
  isIndexUp lms && isMiddleUp lms && !isRingUp lms && !isPinkyUp lms

/-- Pinch test: thumb tip to index tip distance below 0.05, compared as
squares (0.05 squared is 1/400). -/
def isPinch (lms : Fin 21 → Pt) : Bool :=
  decide (distSq lms 4 8 < 1/400)

/-- The gesture classification cascade from predictWebcam, first match
wins: OPEN, VICTORY, PINCH, FIST, otherwise NONE. -/
def classify (lms : Fin 21 → Pt) : GestureType :=
  if 4 ≤ fingersUp lms then GestureType.OPEN
  else if victoryPose lms then GestureType.VICTORY
  else if isPinch lms then GestureType.PINCH
  else if fingersUp lms ≤ 1 then GestureType.FIST
  else GestureType.NONE

/-- The anchor position sent to the 3D scene: landmark 9, remapped by
x := (1 - x) * 2 - 1 and y := -(y * 2 - 1). -/
def positionOf (lms : Fin 21 → Pt) : Pt :=
  ((1 - (lms 9).1) * 2 - 1, -((lms 9).2 * 2 - 1))

/-- Modelled from the spec: the spec says the anchor is the index-base
keypoint under the same remap.  By the CONNECTIONS table in the source the
index finger consists of landmarks 5, 6, 7, 8, so its base joint is
landmark 5.  This definition follows the spec wording for comparison with
positionOf, which the code computes from landmark 9 instead. -/
def specIndexBaseAnchor (lms : Fin 21 → Pt) : Pt :=
  ((1 - (lms 5).1) * 2 - 1, -((lms 5).2 * 2 - 1))

/-- The simpleLandmarks sequence forwarded with every update. -/
def lmsList (lms : Fin 21 → Pt) : List Pt :=
  (List.finRange 21).map lms

/-- Debounce state held in refs: the pending gesture candidate and the
consecutive-sample counter. -/
structure DebState where
  pending : GestureType
  count : ℕ
deriving DecidableEq

/-- One debounce update: an identical label increments the counter, a
differing label resets the counter to 0 and replaces the candidate. -/
def debounceUpd (s : DebState) (label : GestureType) : DebState :=
  if label = s.pending then ⟨s.pending, s.count + 1⟩ else ⟨label, 0⟩

/-- The partial hand-state update emitted after a debounce update: the
gesture field is included only once the counter exceeds the confirmation
threshold of 5; position and landmarks are forwarded unconditionally. -/
def emitPartial (s : DebState) (label : GestureType) (lms : Fin 21 → Pt) : PartialHand :=
  if 5 < s.count then
    ⟨some true, some label, some (positionOf lms), some (lmsList lms)⟩
  else
    ⟨some true, none, some (positionOf lms), some (lmsList lms)⟩

/-- One detector update with the classifier label made explicit: run the
debounce update, then push the emitted partial update into the store. -/
def detectStep (p : DebState × Store) (lms : Fin 21 → Pt) (label : GestureType) :
    DebState × Store :=
  let s' := debounceUpd p.1 label
  (s', setHandState p.2 (emitPartial s' label lms))

/-- One full detector update: classify the landmarks, then step. -/
def predictStep (p : DebState × Store) (lms : Fin 21 → Pt) : DebState × Store :=
  detectStep p lms (classify lms)

/-- The no-hand branch: the counter resets and the store receives a
cleared hand state. -/
def noHandStep (p : DebState × Store) : DebState × Store :=
  (⟨p.1.pending, 0⟩, setHandState p.2 ⟨some false, some GestureType.NONE, none, some []⟩)

/-- Iterate detector updates that all carry the same classifier label. -/
def detectRun (lms : Fin 21 → Pt) (label : GestureType) (p : DebState × Store) :
    ℕ → DebState × Store
  | 0 => p
  | k + 1 => detectStep (detectRun lms label p k) lms label

/-- A 3D vector with rational coordinates. -/
abbrev Vec3 : Type := ℚ × ℚ × ℚ

/-- Squared Euclidean distance between two 3D points; the source compares
THREE.Vector3.distanceTo (nonnegative) against a sum of radii
(nonnegative), so comparing the squares is equivalent. -/
def distSq3 (a b : Vec3) : ℚ :=
  (a.1 - b.1) ^ 2 + (a.2.1 - b.2.1) ^ 2 + (a.2.2 - b.2.2) ^ 2

/-- One entry of the occupiedPositions record built during ornament
generation: an accepted formed position together with its collision
radius. -/
structure Occ where
  pos : Vec3
  radius : ℚ
deriving DecidableEq

/-- One candidate draw from the random source.  The source draws yNorm
uniformly and an angle uniformly in two Math.random calls, then takes the
cosine and sine of the angle; the trigonometric step has no computable
rational counterpart, so a draw directly records yNorm and the resulting
cosine and sine pair.  All layout theorems quantify over every stream of
draws. -/
structure Draw where
  yNorm : ℚ
  cosA : ℚ
  sinA : ℚ

/-- The candidate formed position on the surface of the cone, from
Scene.ornamentGroups: y spans the tree height, the cross radius shrinks
linearly with height plus an outward offset of 0.5, with TREE_HEIGHT 16
and TREE_RADIUS 6. -/
def candidatePos (d : Draw) : Vec3 :=
  let y := (d.yNorm - 1/2) * 16
  let r := (1 - d.yNorm) * 6 + 1/2
  (r * d.cosA, y, r * d.sinA)

/-- The collision scan over all previously accepted ornaments: a candidate
collides when its distance to some occupied position is below the sum of
the two radii (compared as squares). -/
def collides (occ : List Occ) (p : Vec3) (myR : ℚ) : Bool :=
  occ.any fun o => decide (distSq3 p o.pos < (myR + o.radius) ^ 2)

/-- The retry loop for one entity: up to the given fuel of attempts
(100 in the source), draw a candidate at the next stream position and
accept the first one that does not collide; the returned number is the
next unread stream position.  The chaos-position and rotation draws of an
accepted entity do not read or touch the occupancy record and are not
modelled. -/
def tryPlace (rng : ℕ → Draw) (occ : List Occ) (myR : ℚ) : ℕ → ℕ → Option Vec3 × ℕ
  | 0, n => (none, n)
  | fuel + 1, n =>
    let p := candidatePos (rng n)
    if collides occ p myR then tryPlace rng occ myR fuel (n + 1)
    else (some p, n + 1)

/-- Place the requested number of entities of one category: each entity
runs the 100-attempt retry loop; an accepted position is appended to the
category output and pushed onto the shared occupancy record, a failed
entity is dropped. -/
def placeEntities (rng : ℕ → Draw) (myR : ℚ) : ℕ → ℕ → List Occ → List Vec3 × List Occ × ℕ
  | 0, n, occ => ([], occ, n)
  | cnt + 1, n, occ =>
    match tryPlace rng occ myR 100 n with
    | (some p, n') =>
      let rest := placeEntities rng myR cnt n' (occ ++ [⟨p, myR⟩])
      (p :: rest.1, rest.2)
    | (none, n') => placeEntities rng myR cnt n' occ

/-- One ornament category: requested count and mesh scale. -/
structure OrnamentConfig where
  count : ℕ
  scale : ℚ

/-- The fixed category sequence from Scene.ornamentGroups: gold, red and
silver balls and gift boxes, with their counts and scales. -/
def ornamentConfigs : List OrnamentConfig :=
  [⟨250, 35/100⟩, ⟨180, 3/10⟩, ⟨100, 2/10⟩, ⟨60, 6/10⟩]

/-- Run the generator over a category list in order, threading the shared
occupancy record and the stream position; the collision radius of a
category is its scale times the 1.1 buffer factor. -/
def runConfigs (rng : ℕ → Draw) : List OrnamentConfig → ℕ → List Occ →
    List (List Vec3) × List Occ × ℕ
  | [], n, occ => ([], occ, n)
  | c :: cs, n, occ =>
    let g := placeEntities rng (c.scale * (11/10)) c.count n occ
    let rest := runConfigs rng cs g.2.2 g.2.1
    (g.1 :: rest.1, rest.2)

/-- The per-category formed position lists produced at startup. -/
def ornamentGroups (rng : ℕ → Draw) : List (List Vec3) :=
  (runConfigs rng ornamentConfigs 0 []).1

/-- The final occupancy record after all categories have been processed. -/
def ornamentOccupied (rng : ℕ → Draw) : List Occ :=
  (runConfigs rng ornamentConfigs 0 []).2.1

/-- Two occupancy entries are separated when their squared distance is at
least the square of the sum of their radii. -/
def SepOcc (a b : Occ) : Prop :=
  (a.radius + b.radius) ^ 2 ≤ distSq3 a.pos b.pos

/-- Number of polaroid slots, COUNT in Polaroids.tsx. -/
def photoCount : ℕ := 25

/-- Number of grid columns in the polaroid grid. -/
def gridCols : ℕ := 5

/-- Horizontal grid spacing, 1.75 world units. -/
def spacingX : ℚ := 175/100

/-- Vertical grid spacing, 2.1 world units. -/
def spacingY : ℚ := 21/10

/-- Leftmost column x coordinate: the grid width is centered on x = 0. -/
def startX : ℚ := -(((gridCols : ℚ) - 1) * spacingX) / 2

/-- Number of grid rows: the ceiling of COUNT over gridCols. -/
def gridRows : ℕ := ⌈(photoCount : ℚ) / (gridCols : ℚ)⌉₊

/-- Top row y coordinate: the grid block is centered on the baseline 2.9. -/
def startY : ℚ := 29/10 + ((gridRows : ℚ) - 1) * spacingY / 2

/-- The grid position of photo i: column i mod gridCols, row i div
gridCols, at depth 8 in front of the tree. -/
def gridPos (i : ℕ) : Vec3 :=
  (startX + ((i % gridCols : ℕ) : ℚ) * spacingX,
   startY - ((i / gridCols : ℕ) : ℚ) * spacingY, 8)

/-- THREE.MathUtils.lerp. -/
def mathLerp (x y t : ℚ) : ℚ := x + (y - x) * t

/-- The weight-modulated interpolation speed from Ornaments.useFrame:
2.0 times (1.0 minus weight times 0.5). -/
def physicsSpeed (weight : ℚ) : ℚ := 2 * (1 - weight * (1/2))

/-- The binary interpolation target selected by the mode: 1 in CHAOS,
otherwise 0. -/
def targetOf (m : TreeMode) : ℚ := if m = TreeMode.CHAOS then 1 else 0

/-- The per-tick mix value of Ornaments.useFrame, iterated from 0 with a
fixed elapsed time per tick, while the mode stays CHAOS (target 1):
each tick performs lerp of the current mix toward the target with factor
elapsed time times physicsSpeed. -/
def mixSeq (dt w : ℚ) : ℕ → ℚ
  | 0 => 0
  | k + 1 => mathLerp (mixSeq dt w k) (targetOf TreeMode.CHAOS) (dt * physicsSpeed w)

/-- The drag/inertia controller state of TreeGroup: accumulated rotation
about y, stored angular velocity, drag flag and last pointer x. -/
structure DragState where
  rot : ℚ
  vel : ℚ
  dragging : Bool
  lastX : ℚ
deriving DecidableEq

/-- Pointer-down handler: enter dragging, record the pointer x and zero
the stored velocity. -/
def handlePointerDown (s : DragState) (clientX : ℚ) : DragState :=
  ⟨s.rot, 0, true, clientX⟩

/-- Pointer-move handler: while dragging, the velocity becomes the pixel
delta times the 0.005 sensitivity and is applied to the rotation
immediately; otherwise nothing happens. -/
def handlePointerMove (s : DragState) (clientX : ℚ) : DragState :=
  if s.dragging then
    let deltaX := clientX - s.lastX
    let v := deltaX * (5/1000)
    ⟨s.rot + v, v, true, clientX⟩
  else s

/-- Pointer-up handler: leave dragging; the stored velocity persists. -/
def handlePointerUp (s : DragState) : DragState :=
  ⟨s.rot, s.vel, false, s.lastX⟩

/-- One useFrame tick of TreeGroup: a VICTORY gesture rotates at the
fixed speed and kills the inertia; otherwise, while not dragging, a
velocity above the 0.0001 epsilon is applied to the rotation and decayed
by 0.95, and a velocity at or below the epsilon is clamped to zero. -/
def frameRotation (gesture : GestureType) (delta : ℚ) (s : DragState) : DragState :=
  if gesture = GestureType.VICTORY then
    ⟨s.rot - delta * (3/10), 0, s.dragging, s.lastX⟩
  else if s.dragging = false then
    if 1/10000 < |s.vel| then ⟨s.rot + s.vel, s.vel * (95/100), s.dragging, s.lastX⟩
    else ⟨s.rot, 0, s.dragging, s.lastX⟩
  else s

/-- Iterated inertia ticks with no gesture override. -/
def inertiaRun (delta : ℚ) (s : DragState) : ℕ → DragState
  | 0 => s
  | k + 1 => frameRotation GestureType.NONE delta (inertiaRun delta s k)

/-- Landmark set whose middle-finger base (landmark 9) and index-finger
base (landmark 5) differ, separating the two anchor formulas. -/
def cexLms : Fin 21 → Pt :=
  fun i => if i.val = 9 then (1/2, 1/2) else (0, 0)

/-- Landmark set with all five fingers extended and the thumb tip touching
the index tip: both the OPEN rule and the raw pinch predicate hold. -/
def openPinchLms : Fin 21 → Pt :=
  fun i =>
    if i.val = 0 then (0, 0)
    else if i.val = 3 ∨ i.val = 6 ∨ i.val = 10 ∨ i.val = 14 ∨ i.val = 18 then (1/10, 0)
    else if i.val = 8 then (1, 1/100)
    else (1, 0)

/-- A constant draw stream for concrete layout evaluations. -/
def constDraw : Draw := ⟨1/2, 1, 0⟩

/-- The constant stream that always produces constDraw. -/
def constRng : ℕ → Draw := fun _ => constDraw

/-- An occupancy record holding exactly the point the constant stream
always proposes, so every attempt collides. -/
def blockOcc : List Occ := [⟨candidatePos constDraw, 1⟩]

/-- A detected partial update carrying a confirmed OPEN gesture. -/
def pOpen : PartialHand := ⟨some true, some GestureType.OPEN, none, none⟩

/-- An unconfirmed detected partial update: position and landmarks only. -/
def pNoGesture : PartialHand := ⟨some true, none, some ((0:ℚ), (0:ℚ)), some []⟩

/-- A store whose confirmed gesture is OPEN with a detected hand. -/
def c10Store : Store := ⟨TreeMode.FORMED, ⟨true, GestureType.OPEN, (0, 0), []⟩⟩

/-- The all-zero landmark set used for concrete debounce runs. -/
def zeroLms : Fin 21 → Pt := fun _ => (0, 0)

/-- Value of a Fin 21 numeral literal, as a rewrite rule for evaluating
concrete landmark sets. -/
lemma fin21_val (k : ℕ) : ((no_index (OfNat.ofNat k) : Fin 21) : ℕ) = k % 21 := rfl

/-- Claim C1 counterexample: on mode GRID the manual toggle yields FORMED,
not CHAOS as the claim states. -/
theorem toggle_grid_counterexample :
    (toggleStore ⟨TreeMode.GRID, ⟨false, GestureType.NONE, (0, 0), []⟩⟩).mode ≠ TreeMode.CHAOS
    ∧ (toggleStore ⟨TreeMode.GRID, ⟨false, GestureType.NONE, (0, 0), []⟩⟩).mode
        = TreeMode.FORMED := by
  constructor <;> decide

/-- Claim C1 (amended): the manual toggle maps FORMED to CHAOS and CHAOS
to FORMED, and when the current mode is GRID it yields FORMED (the toggle
sends every non-FORMED mode to FORMED); it acts on the mode alone,
ignoring the hand state and detection entirely. -/
theorem toggle_mode_table (st : Store) :
    (st.mode = TreeMode.FORMED → (toggleStore st).mode = TreeMode.CHAOS)
    ∧ (st.mode = TreeMode.CHAOS → (toggleStore st).mode = TreeMode.FORMED)
    ∧ (st.mode = TreeMode.GRID → (toggleStore st).mode = TreeMode.FORMED)
    ∧ (toggleStore st).handState = st.handState := by
  obtain ⟨m, h⟩ := st
  cases m <;> simp [toggleStore]

/-- Witness for the amended C1 statement at the GRID mode. -/
theorem toggle_mode_table_check :
    (toggleStore ⟨TreeMode.GRID, initialStore.handState⟩).mode = TreeMode.FORMED :=
  (toggle_mode_table ⟨TreeMode.GRID, initialStore.handState⟩).2.2.1 rfl

/-- Every detector update, confirmed or not, forwards the remapped
landmark 9 as the anchor position. -/
lemma predictStep_position (p : DebState × Store) (lms : Fin 21 → Pt) :
    ((predictStep p lms).2).handState.position = positionOf lms := by
  by_cases h : 5 < (debounceUpd p.1 (classify lms)).count <;>
    simp [predictStep, detectStep, setHandState, mergeHand, emitPartial, h]

/-- Claim C2 (amended): for every detected keypoint set, the anchor point
emitted with the classification is the keypoint at index 9 (the
middle-finger base joint per the CONNECTIONS table, not the index-finger
base) remapped by x = (1 - x) * 2 - 1 and y = -(y * 2 - 1). -/
theorem anchor_is_middle_base (p : DebState × Store) (lms : Fin 21 → Pt) :
    ((predictStep p lms).2).handState.position
      = ((1 - (lms 9).1) * 2 - 1, -((lms 9).2 * 2 - 1)) :=
  predictStep_position p lms

/-- Claim C2 counterexample: on a landmark set whose landmark 5 differs
from landmark 9, the emitted anchor is not the remapped index-base
keypoint. -/
theorem anchor_counterexample :
    ((predictStep (⟨GestureType.NONE, 0⟩, initialStore) cexLms).2).handState.position
      ≠ specIndexBaseAnchor cexLms := by
  rw [predictStep_position]
  norm_num [positionOf, specIndexBaseAnchor, cexLms, fin21_val]

/-- Claim C4: the gesture-driven transition is total and exact: the
initial mode is FORMED; an update whose merged state is not detected
leaves the mode unchanged; when it is detected, OPEN maps any mode to
CHAOS, FIST to FORMED, PINCH to GRID, and VICTORY and NONE leave the mode
unchanged. -/
theorem mode_transition_table :
    initialStore.mode = TreeMode.FORMED
    ∧ ∀ (st : Store) (p : PartialHand),
        ((mergeHand st.handState p).detected = false → (setHandState st p).mode = st.mode)
        ∧ ((mergeHand st.handState p).detected = true →
            ((mergeHand st.handState p).gesture = GestureType.OPEN →
              (setHandState st p).mode = TreeMode.CHAOS)
            ∧ ((mergeHand st.handState p).gesture = GestureType.FIST →
              (setHandState st p).mode = TreeMode.FORMED)
            ∧ ((mergeHand st.handState p).gesture = GestureType.PINCH →
              (setHandState st p).mode = TreeMode.GRID)
            ∧ ((mergeHand st.handState p).gesture = GestureType.VICTORY →
              (setHandState st p).mode = st.mode)
            ∧ ((mergeHand st.handState p).gesture = GestureType.NONE →
              (setHandState st p).mode = st.mode)) := by
  refine ⟨rfl, fun st p => ⟨fun hd => ?_, fun hd => ?_⟩⟩
  · simp [setHandState, hd]
  · refine ⟨fun hg => ?_, fun hg => ?_, fun hg => ?_, fun hg => ?_, fun hg => ?_⟩ <;>
      simp [setHandState, hd, hg, modeFor]

/-- Witness for C4: a detected OPEN update moves the initial store to
CHAOS. -/
theorem mode_transition_table_check :
    (mergeHand initialStore.handState pOpen).detected = true
    ∧ (mergeHand initialStore.handState pOpen).gesture = GestureType.OPEN
    ∧ (setHandState initialStore pOpen).mode = TreeMode.CHAOS :=
  ⟨by decide, by decide,
    ((mode_transition_table.2 initialStore pOpen).2 (by decide)).1 (by decide)⟩

/-- Claim C10: an update whose merged state is detected re-applies the
transition of the retained confirmed gesture even when the update itself
carries no gesture field, so the mode tracks the confirmed gesture after
every such update, and a manual toggle is overwritten by the very next
detected update. -/
theorem detection_reasserts_mode (st : Store) (p : PartialHand)
    (hg : p.gesture = none)
    (hd : (mergeHand st.handState p).detected = true) :
    (setHandState st p).handState.gesture = st.handState.gesture
    ∧ (setHandState st p).mode = modeFor st.handState.gesture st.mode
    ∧ (st.handState.gesture = GestureType.OPEN →
        (setHandState st p).mode = TreeMode.CHAOS)
    ∧ (st.handState.gesture = GestureType.FIST →
        (setHandState st p).mode = TreeMode.FORMED)
    ∧ (st.handState.gesture = GestureType.PINCH →
        (setHandState st p).mode = TreeMode.GRID)
    ∧ ((st.handState.gesture = GestureType.OPEN ∨ st.handState.gesture = GestureType.FIST ∨
        st.handState.gesture = GestureType.PINCH) →
        (setHandState (toggleStore st) p).mode = (setHandState st p).mode) := by
  have hmerge : (mergeHand st.handState p).gesture = st.handState.gesture := by
    simp [mergeHand, hg]
  refine ⟨?_, ?_, fun h1 => ?_, fun h1 => ?_, fun h1 => ?_, fun h1 => ?_⟩
  · simp [setHandState, mergeHand, hg]
  · simp [setHandState, hd, hmerge]
  · simp [setHandState, hd, hmerge, h1, modeFor]
  · simp [setHandState, hd, hmerge, h1, modeFor]
  · simp [setHandState, hd, hmerge, h1, modeFor]
  · have hd' : (mergeHand (toggleStore st).handState p).detected = true := hd
    have hm' : (mergeHand (toggleStore st).handState p).gesture = st.handState.gesture := hmerge
    rcases h1 with h1 | h1 | h1 <;>
      simp [setHandState, hd, hd', hmerge, hm', h1, modeFor, toggleStore]

/-- Witness for C10: with confirmed gesture OPEN, a gesture-free detected
update sets the mode to CHAOS. -/
theorem detection_reasserts_mode_check :
    pNoGesture.gesture = none
    ∧ (mergeHand c10Store.handState pNoGesture).detected = true
    ∧ (setHandState c10Store pNoGesture).mode = TreeMode.CHAOS :=
  ⟨rfl, by decide,
    (detection_reasserts_mode c10Store pNoGesture rfl (by decide)).2.2.1 rfl⟩

/-- Claim C5: the classifier evaluates its rules in strict priority order
with the first match winning: at least 4 extended fingers yields OPEN
regardless of the other predicates (in particular even when the raw pinch
predicate holds); VICTORY is decided before PINCH, PINCH before FIST (at
most one extended finger), and otherwise the result is NONE. -/
theorem classifier_priority (lms : Fin 21 → Pt) :
    (4 ≤ fingersUp lms → classify lms = GestureType.OPEN)
    ∧ (fingersUp lms < 4 → victoryPose lms = true → classify lms = GestureType.VICTORY)
    ∧ (fingersUp lms < 4 → victoryPose lms = false → isPinch lms = true →
        classify lms = GestureType.PINCH)
    ∧ (fingersUp lms < 4 → victoryPose lms = false → isPinch lms = false →
        fingersUp lms ≤ 1 → classify lms = GestureType.FIST)
    ∧ (fingersUp lms < 4 → victoryPose lms = false → isPinch lms = false →
        1 < fingersUp lms → classify lms = GestureType.NONE) := by
  refine ⟨fun h1 => ?_, fun h1 h2 => ?_, fun h1 h2 h3 => ?_,
    fun h1 h2 h3 h4 => ?_, fun h1 h2 h3 h4 => ?_⟩
  · rw [classify, if_pos h1]
  · rw [classify, if_neg (by omega), if_pos h2]
  · rw [classify, if_neg (by omega), if_neg (by simp [h2]), if_pos h3]
  · rw [classify, if_neg (by omega), if_neg (by simp [h2]), if_neg (by simp [h3]), if_pos h4]
  · rw [classify, if_neg (by omega), if_neg (by simp [h2]), if_neg (by simp [h3]),
      if_neg (by omega)]

/-- Witness for C5: a hand with all five fingers extended and the thumb
tip on the index tip satisfies the raw pinch predicate yet classifies as
OPEN. -/
theorem classifier_priority_check :
    4 ≤ fingersUp openPinchLms ∧ isPinch openPinchLms = true
    ∧ classify openPinchLms = GestureType.OPEN := by
  have h1 : 4 ≤ fingersUp openPinchLms := by
    norm_num [fingersUp, isThumbUp, isIndexUp, isMiddleUp, isRingUp, isPinkyUp, distSq,
      openPinchLms, fin21_val]
  have h2 : isPinch openPinchLms = true := by
    norm_num [isPinch, distSq, openPinchLms, fin21_val]
  exact ⟨h1, h2, (classifier_priority openPinchLms).1 h1⟩

/-- The debounce state after k identical samples whose label already
equals the pending candidate with counter 0: the candidate is kept and
the counter counts the samples. -/
lemma detectRun_state (lms : Fin 21 → Pt) (g : GestureType) (st : Store) :
    ∀ k, (detectRun lms g (⟨g, 0⟩, st) k).1 = ⟨g, k⟩ := by
  intro k
  induction k with
  | zero => rfl
  | succ k ih => simp [detectRun, detectStep, debounceUpd, ih]

/-- While the counter stays at or below the threshold, the forwarded
gesture is retained. -/
lemma detectRun_gesture_le5 (lms : Fin 21 → Pt) (g : GestureType) (st : Store) :
    ∀ k, k ≤ 5 →
      (detectRun lms g (⟨g, 0⟩, st) k).2.handState.gesture = st.handState.gesture := by
  intro k
  induction k with
  | zero => intro _; rfl
  | succ k ih =>
    intro hk
    have hs := detectRun_state lms g st k
    have ihg := ih (by omega)
    have hupd : debounceUpd ⟨g, k⟩ g = ⟨g, k + 1⟩ := by simp [debounceUpd]
    simp only [detectRun, detectStep, hs, hupd]
    rw [emitPartial, if_neg (show ¬ 5 < k + 1 by omega)]
    simpa [setHandState, mergeHand] using ihg

/-- Claim C3 (amended): when the stored pending candidate already equals
the incoming label with counter 0, a run of 6 identical samples confirms
exactly on the 6th (the first 5 retain the previously confirmed gesture);
a label differing from the pending candidate resets the counter to 0 and
replaces the candidate, so after any reset confirmation needs at least 6
further identical samples; from a state whose pending candidate differs,
the 6 samples only reach counter 5 and the 7th sample confirms. -/
theorem debounce_confirmation (g : GestureType) (st : Store) (lms : Fin 21 → Pt) :
    (∀ k, k ≤ 5 →
      (detectRun lms g (⟨g, 0⟩, st) k).2.handState.gesture = st.handState.gesture)
    ∧ (detectRun lms g (⟨g, 0⟩, st) 6).2.handState.gesture = g
    ∧ (∀ (s : DebState) (l : GestureType), l ≠ s.pending → debounceUpd s l = ⟨l, 0⟩) := by
  refine ⟨detectRun_gesture_le5 lms g st, ?_, fun s l h => by simp [debounceUpd, h]⟩
  have hs := detectRun_state lms g st 5
  show (detectStep (detectRun lms g (⟨g, 0⟩, st) 5) lms g).2.handState.gesture = g
  have hupd : debounceUpd ⟨g, 5⟩ g = ⟨g, 6⟩ := by simp [debounceUpd]
  simp only [detectStep, hs, hupd]
  rw [emitPartial, if_pos (show 5 < 6 by omega)]
  simp [setHandState, mergeHand]

/-- Claim C3 counterexample: from the pipeline's initial debounce state
(pending NONE, counter 0), 6 consecutive OPEN labels do not update the
forwarded gesture: the first sample only resets the candidate, so the
counter reaches 5 and never exceeds the threshold within those 6
samples. -/
theorem debounce_counterexample :
    (detectRun zeroLms GestureType.OPEN
      (⟨GestureType.NONE, 0⟩, initialStore) 6).2.handState.gesture ≠ GestureType.OPEN := by
  decide

/-- Witness for the amended C3 statement: with pending OPEN and counter 0
over the initial store, sample 5 still reports NONE and sample 6 reports
OPEN. -/
theorem debounce_confirmation_check :
    (detectRun zeroLms GestureType.OPEN
      (⟨GestureType.OPEN, 0⟩, initialStore) 5).2.handState.gesture = GestureType.NONE
    ∧ (detectRun zeroLms GestureType.OPEN
      (⟨GestureType.OPEN, 0⟩, initialStore) 6).2.handState.gesture = GestureType.OPEN := by
  constructor
  · have h := (debounce_confirmation GestureType.OPEN initialStore zeroLms).1 5 (by omega)
    simpa [initialStore] using h
  · exact (debounce_confirmation GestureType.OPEN initialStore zeroLms).2.1

/-- The number of polaroid grid rows evaluates to 5. -/
lemma gridRows_eq : gridRows = 5 := by
  norm_num [gridRows, photoCount, gridCols]

/-- Claim C7: with COUNT 25 and 5 columns the grid has exactly 5 rows;
photo i sits in column i mod 5 and row i div 5 (row-major, every row
index below 5 is hit); each row's x coordinates are symmetric about x = 0
with fixed spacing 1.75; and the vertical extent is centered as a block on
the 2.9 baseline. -/
theorem photo_grid_layout :
    gridRows = 5
    ∧ (∀ i : Fin 25, gridPos i.val
        = (startX + ((i.val % 5 : ℕ) : ℚ) * spacingX,
           startY - ((i.val / 5 : ℕ) : ℚ) * spacingY, (8 : ℚ)))
    ∧ (∀ i : Fin 25, i.val / 5 < 5)
    ∧ (∀ r : Fin 5, ∃ i : Fin 25, i.val / 5 = r.val)
    ∧ (∀ i : Fin 25, ∃ j : Fin 25,
        j.val / 5 = i.val / 5 ∧ (gridPos j.val).1 = -((gridPos i.val).1))
    ∧ (∀ c : Fin 4, (gridPos (c.val + 1)).1 - (gridPos c.val).1 = 175/100)
    ∧ ((gridPos 0).2.1 + (gridPos 24).2.1) / 2 = 29/10 := by
  refine ⟨gridRows_eq, fun i => rfl, fun i => ?_, fun r => ?_, fun i => ?_, fun c => ?_, ?_⟩
  · have := i.isLt; omega
  · have hr := r.isLt
    refine ⟨⟨5 * r.val, by omega⟩, ?_⟩
    show 5 * r.val / 5 = r.val
    omega
  · have hi := i.isLt
    refine ⟨⟨5 * (i.val / 5) + (4 - i.val % 5), by omega⟩, ?_, ?_⟩
    · show (5 * (i.val / 5) + (4 - i.val % 5)) / 5 = i.val / 5
      omega
    show (gridPos (5 * (i.val / 5) + (4 - i.val % 5))).1 = -((gridPos i.val).1)
    have h1 : (5 * (i.val / 5) + (4 - i.val % 5)) % 5 = 4 - i.val % 5 := by omega
    have hc : i.val % 5 ≤ 4 := by omega
    simp only [gridPos, gridCols, h1]
    rw [Nat.cast_sub hc]
    norm_num [startX, spacingX, gridCols]
    ring
  · have hc := c.isLt
    have h1 : (c.val + 1) % 5 = c.val + 1 := by omega
    have h2 : c.val % 5 = c.val := by omega
    simp only [gridPos, gridCols, h1, h2]
    push_cast
    ring_nf
    norm_num [spacingX]
  · have h1 : (24 : ℕ) % 5 = 4 := by norm_num
    have h2 : (24 : ℕ) / 5 = 4 := by norm_num
    simp only [gridPos, gridCols, h1, h2]
    norm_num [startY, spacingY, gridRows_eq]

/-- Closed form of the chaos mix: the residue toward the target halves
geometrically, one factor of (1 - dt * rate) per tick. -/
lemma targetOf_chaos : targetOf TreeMode.CHAOS = 1 := by
  simp [targetOf]

/-- Closed form helper restated. -/
lemma mixSeq_residue (dt w : ℚ) : ∀ k, 1 - mixSeq dt w k = (1 - dt * physicsSpeed w) ^ k := by
  intro k
  induction k with
  | zero => simp [mixSeq]
  | succ k ih =>
    simp only [mixSeq, mathLerp, targetOf_chaos, pow_succ]
    linear_combination (1 - dt * physicsSpeed w) * ih

/-- Geometric decay against the harmonic bound: for 0 le q le 1,
(1 - q)^k * (1 + k*q) stays at most 1. -/
lemma geom_decay_le (q : ℚ) (h0 : 0 ≤ q) (h1 : q ≤ 1) :
    ∀ k : ℕ, (1 - q) ^ k * (1 + (k : ℚ) * q) ≤ 1 := by
  intro k
  induction k with
  | zero => norm_num
  | succ k ih =>
    have hp : (0:ℚ) ≤ (1 - q) ^ k := pow_nonneg (by linarith) k
    have hk : (0:ℚ) ≤ (k : ℚ) := Nat.cast_nonneg k
    have key : (1 - q) * (1 + ((k : ℚ) + 1) * q) ≤ 1 + (k : ℚ) * q := by
      nlinarith [mul_nonneg hk (sq_nonneg q), sq_nonneg q]
    push_cast
    calc (1 - q) ^ (k + 1) * (1 + ((k : ℚ) + 1) * q)
        = (1 - q) ^ k * ((1 - q) * (1 + ((k : ℚ) + 1) * q)) := by ring
      _ ≤ (1 - q) ^ k * (1 + (k : ℚ) * q) := mul_le_mul_of_nonneg_left key hp
      _ ≤ 1 := ih

/-- Claim C8: the per-tick mix update is mix plus (target minus mix) times
elapsed time times rate, with rate = 2 * (1 - weight * 0.5); from mix 0
toward target 1 with a fixed per-step elapsed time whose product with the
rate lies in (0, 1], the sequence is monotone non-decreasing, never
exceeds 1, comes within 1/1000 of 1 after a bounded number of steps, and a
heavier weight (larger, up to 2) never gets ahead of a lighter one. -/
theorem mix_update_convergence (dt w : ℚ)
    (h1 : 0 < dt * physicsSpeed w) (h2 : dt * physicsSpeed w ≤ 1) :
    (∀ k, mixSeq dt w (k + 1)
        = mixSeq dt w k + (1 - mixSeq dt w k) * (dt * (2 * (1 - w * (1/2)))))
    ∧ (∀ k, mixSeq dt w k ≤ mixSeq dt w (k + 1))
    ∧ (∀ k, mixSeq dt w k ≤ 1)
    ∧ (∃ N, ∀ k, N ≤ k → 1 - mixSeq dt w k ≤ 1/1000)
    ∧ (∀ w2 : ℚ, 0 < dt → w ≤ w2 → w2 ≤ 2 →
        ∀ k, mixSeq dt w2 k ≤ mixSeq dt w k) := by
  have hq1 : (0:ℚ) ≤ 1 - dt * physicsSpeed w := by linarith
  refine ⟨fun k => ?_, fun k => ?_, fun k => ?_, ?_, ?_⟩
  · simp only [mixSeq, mathLerp, targetOf_chaos, physicsSpeed]
  · have hres := mixSeq_residue dt w k
    have hp : (0:ℚ) ≤ (1 - dt * physicsSpeed w) ^ k := pow_nonneg hq1 k
    simp only [mixSeq, mathLerp, targetOf_chaos]
    nlinarith [mul_nonneg hp h1.le]
  · have hres := mixSeq_residue dt w k
    have hp : (0:ℚ) ≤ (1 - dt * physicsSpeed w) ^ k := pow_nonneg hq1 k
    linarith
  · obtain ⟨N, hN⟩ := exists_nat_gt ((999 : ℚ) / (dt * physicsSpeed w))
    refine ⟨N, fun k hk => ?_⟩
    have h999 : (999 : ℚ) ≤ (N : ℚ) * (dt * physicsSpeed w) := by
      rw [div_lt_iff h1] at hN
      linarith
    have hres := mixSeq_residue dt w k
    have hmono : (1 - dt * physicsSpeed w) ^ k ≤ (1 - dt * physicsSpeed w) ^ N :=
      pow_le_pow_of_le_one hq1 (by linarith) hk
    have hbound := geom_decay_le (dt * physicsSpeed w) h1.le h2 N
    have hpos : (0:ℚ) < 1 + (N : ℚ) * (dt * physicsSpeed w) := by linarith
    have hdiv : (1 - dt * physicsSpeed w) ^ N ≤ 1 / (1 + (N : ℚ) * (dt * physicsSpeed w)) := by
      rw [le_div_iff hpos]
      exact hbound
    have hfinal : 1 / (1 + (N : ℚ) * (dt * physicsSpeed w)) ≤ 1/1000 :=
      one_div_le_one_div_of_le (by norm_num) (by linarith)
    linarith
  · intro w2 hdt hw hw2 k
    have hps : physicsSpeed w2 ≤ physicsSpeed w := by
      simp only [physicsSpeed]
      linarith
    have hq21 : dt * physicsSpeed w2 ≤ dt * physicsSpeed w :=
      mul_le_mul_of_nonneg_left hps hdt.le
    have hq2nonneg : (0:ℚ) ≤ dt * physicsSpeed w2 := by
      have : (0:ℚ) ≤ physicsSpeed w2 := by
        simp only [physicsSpeed]
        linarith
      exact mul_nonneg hdt.le this
    have e1 := mixSeq_residue dt w k
    have e2 := mixSeq_residue dt w2 k
    have hpow : (1 - dt * physicsSpeed w) ^ k ≤ (1 - dt * physicsSpeed w2) ^ k :=
      pow_le_pow_left₀ hq1 (by linarith) k
    linarith

/-- Witness for C8 at the gold-ornament weight 0.2 and a 60 Hz tick. -/
theorem mix_update_convergence_check :
    0 < (1/60 : ℚ) * physicsSpeed (1/5) ∧ (1/60 : ℚ) * physicsSpeed (1/5) ≤ 1
    ∧ mixSeq (1/60) (1/5) 0 ≤ mixSeq (1/60) (1/5) 1 :=
  ⟨by norm_num [physicsSpeed], by norm_num [physicsSpeed],
    (mix_update_convergence (1/60) (1/5) (by norm_num [physicsSpeed])
      (by norm_num [physicsSpeed])).2.1 0⟩

/-- An inertia tick never touches the drag flag or the stored pointer x. -/
lemma frameRotation_flags (g : GestureType) (d : ℚ) (s : DragState) :
    (frameRotation g d s).dragging = s.dragging ∧ (frameRotation g d s).lastX = s.lastX := by
  unfold frameRotation
  split
  · exact ⟨rfl, rfl⟩
  split
  · split
    · exact ⟨rfl, rfl⟩
    · exact ⟨rfl, rfl⟩
  · exact ⟨rfl, rfl⟩

/-- Iterated inertia ticks keep the drag flag. -/
lemma inertiaRun_dragging (d : ℚ) (s : DragState) :
    ∀ k, (inertiaRun d s k).dragging = s.dragging := by
  intro k
  induction k with
  | zero => rfl
  | succ k ih =>
    rw [inertiaRun, (frameRotation_flags GestureType.NONE d (inertiaRun d s k)).1, ih]

/-- While the decayed velocity stays above the epsilon, each inertia tick
from a released drag with velocity one half multiplies the velocity by
0.95 and adds it to the rotation. -/
lemma inertiaRun_exact (r0 x0 d : ℚ) :
    ∀ k, (∀ j, j < k → (1:ℚ)/10000 < (1/2) * (95/100) ^ j) →
      (inertiaRun d ⟨r0, 1/2, false, x0⟩ k).vel = (1/2) * (95/100) ^ k
      ∧ (inertiaRun d ⟨r0, 1/2, false, x0⟩ k).rot
          = r0 + (Finset.range k).sum (fun j => (1/2 : ℚ) * (95/100) ^ j) := by
  intro k
  induction k with
  | zero => exact fun _ => ⟨by norm_num [inertiaRun], by norm_num [inertiaRun]⟩
  | succ k ih =>
    intro hcond
    obtain ⟨hv, hr⟩ := ih (fun j hj => hcond j (by omega))
    have hd : (inertiaRun d ⟨r0, 1/2, false, x0⟩ k).dragging = false :=
      inertiaRun_dragging d ⟨r0, 1/2, false, x0⟩ k
    have habove : (1:ℚ)/10000 < (1/2) * (95/100) ^ k := hcond k (by omega)
    have hpos : (0:ℚ) < (1/2) * (95/100) ^ k := by positivity
    have habs : (1:ℚ)/10000 < |(inertiaRun d ⟨r0, 1/2, false, x0⟩ k).vel| := by
      rw [hv, abs_of_pos hpos]
      exact habove
    constructor
    · rw [inertiaRun, frameRotation, if_neg (by simp), if_pos hd, if_pos habs, hv]
      ring
    · rw [inertiaRun, frameRotation, if_neg (by simp), if_pos hd, if_pos habs,
        Finset.sum_range_succ, hv, hr]
      ring

/-- The velocity along an inertia run is either the exact decayed value or
already clamped to zero. -/
lemma inertiaRun_vel_cases (r0 x0 d : ℚ) :
    ∀ k, (inertiaRun d ⟨r0, 1/2, false, x0⟩ k).vel = (1/2) * (95/100) ^ k
      ∨ (inertiaRun d ⟨r0, 1/2, false, x0⟩ k).vel = 0 := by
  intro k
  induction k with
  | zero => left; norm_num [inertiaRun]
  | succ k ih =>
    have hd : (inertiaRun d ⟨r0, 1/2, false, x0⟩ k).dragging = false :=
      inertiaRun_dragging d ⟨r0, 1/2, false, x0⟩ k
    rcases ih with hv | hv
    · by_cases habs : (1:ℚ)/10000 < |(inertiaRun d ⟨r0, 1/2, false, x0⟩ k).vel|
      · left
        rw [inertiaRun, frameRotation, if_neg (by simp), if_pos hd, if_pos habs, hv]
        ring
      · right
        rw [inertiaRun, frameRotation, if_neg (by simp), if_pos hd, if_neg habs]
    · right
      have habs : ¬ (1:ℚ)/10000 < |(inertiaRun d ⟨r0, 1/2, false, x0⟩ k).vel| := by
        rw [hv]
        norm_num
      rw [inertiaRun, frameRotation, if_neg (by simp), if_pos hd, if_neg habs]

/-- A clamped velocity stays clamped on every later tick. -/
lemma inertiaRun_zero_stable (r0 x0 d : ℚ) {k : ℕ}
    (h : (inertiaRun d ⟨r0, 1/2, false, x0⟩ k).vel = 0) :
    ∀ m, k ≤ m → (inertiaRun d ⟨r0, 1/2, false, x0⟩ m).vel = 0 := by
  intro m hm
  induction m with
  | zero =>
    have : k = 0 := by omega
    rw [← this]
    exact h
  | succ m ih =>
    by_cases hk : k = m + 1
    · rw [← hk]; exact h
    · have hv := ih (by omega)
      have hd : (inertiaRun d ⟨r0, 1/2, false, x0⟩ m).dragging = false :=
        inertiaRun_dragging d ⟨r0, 1/2, false, x0⟩ m
      have habs : ¬ (1:ℚ)/10000 < |(inertiaRun d ⟨r0, 1/2, false, x0⟩ m).vel| := by
        rw [hv]
        norm_num
      rw [inertiaRun, frameRotation, if_neg (by simp), if_pos hd, if_neg habs]

/-- After 99980 decay ticks the surviving velocity would be at or below
the clamping epsilon. -/
lemma decay_small : (1/2 : ℚ) * (95/100) ^ 99980 ≤ 1/10000 := by
  have h := geom_decay_le (5/100) (by norm_num) (by norm_num) 99980
  have hc : (((99980 : ℕ) : ℚ)) = 99980 := by norm_num
  rw [hc] at h
  have h95 : ((1:ℚ) - 5/100) = 95/100 := by norm_num
  have hbig : ((1:ℚ) + 99980 * (5/100)) = 5000 := by norm_num
  rw [h95, hbig] at h
  linarith [h]

/-- Claim C9: a pointer-move of 100 pixels while dragging bumps the
rotation by exactly 0.5 radians and stores velocity 0.5; afterwards, on
each tick with no drag and no gesture override, the velocity at tick k is
0.5 times 0.95 to the k while that value stays above the 0.0001 epsilon
and is added to the rotation each tick, and the velocity is clamped to
exactly 0 once its magnitude is not above the epsilon, which happens
within a bounded number of ticks (99981 is such a bound). -/
theorem drag_inertia_behavior :
    (∀ s : DragState, s.dragging = true →
      handlePointerMove s (s.lastX + 100) = ⟨s.rot + 1/2, 1/2, true, s.lastX + 100⟩)
    ∧ (∀ r0 x0 d : ℚ, ∀ k, (∀ j, j < k → (1:ℚ)/10000 < (1/2) * (95/100) ^ j) →
        (inertiaRun d ⟨r0, 1/2, false, x0⟩ k).vel = (1/2) * (95/100) ^ k
        ∧ (inertiaRun d ⟨r0, 1/2, false, x0⟩ k).rot
            = r0 + (Finset.range k).sum (fun j => (1/2 : ℚ) * (95/100) ^ j))
    ∧ (∀ r0 x0 d : ℚ, ∀ k, 99981 ≤ k → (inertiaRun d ⟨r0, 1/2, false, x0⟩ k).vel = 0)
    ∧ (∀ (d : ℚ) (s : DragState), s.dragging = false →
        ¬ (1:ℚ)/10000 < |s.vel| → (frameRotation GestureType.NONE d s).vel = 0) := by
  refine ⟨fun s hs => ?_, fun r0 x0 d k h => inertiaRun_exact r0 x0 d k h,
    fun r0 x0 d k hk => ?_, fun d s hd habs => ?_⟩
  · simp only [handlePointerMove, hs, if_true, DragState.mk.injEq]
    norm_num
  · have hstep : (inertiaRun d ⟨r0, 1/2, false, x0⟩ 99981).vel = 0 := by
      rcases inertiaRun_vel_cases r0 x0 d 99980 with hv | hv
      · have hdrag : (inertiaRun d ⟨r0, 1/2, false, x0⟩ 99980).dragging = false :=
          inertiaRun_dragging d ⟨r0, 1/2, false, x0⟩ 99980
        have habs : ¬ (1:ℚ)/10000 < |(inertiaRun d ⟨r0, 1/2, false, x0⟩ 99980).vel| := by
          rw [hv, abs_of_pos (by positivity)]
          have := decay_small
          linarith
        show (inertiaRun d ⟨r0, 1/2, false, x0⟩ (99980 + 1)).vel = 0
        rw [inertiaRun, frameRotation, if_neg (by simp), if_pos hdrag, if_neg habs]
      · exact inertiaRun_zero_stable r0 x0 d hv 99981 (by omega)
    exact inertiaRun_zero_stable r0 x0 d hstep k hk
  · rw [frameRotation, if_neg (by simp), if_pos hd, if_neg habs]

/-- Witness for C9: the concrete 100 pixel drag from a resting state, and
the exact decayed velocity after the first inertia tick. -/
theorem drag_inertia_behavior_check :
    handlePointerMove ⟨0, 0, true, 0⟩ (0 + 100) = ⟨0 + 1/2, 1/2, true, 0 + 100⟩
    ∧ (inertiaRun 0 ⟨0, 1/2, false, 0⟩ 1).vel = (1/2) * (95/100) ^ 1 := by
  constructor
  · exact drag_inertia_behavior.1 ⟨0, 0, true, 0⟩ rfl
  · refine (drag_inertia_behavior.2.1 0 0 0 1 (fun j hj => ?_)).1
    interval_cases j
    norm_num

/-- Squared distance is symmetric. -/
lemma distSq3_comm (a b : Vec3) : distSq3 a b = distSq3 b a := by
  unfold distSq3
  ring

/-- A candidate that passes the collision scan is separated from every
occupied entry. -/
lemma collides_false_sep {occ : List Occ} {p : Vec3} {r : ℚ}
    (h : collides occ p r = false) :
    ∀ o ∈ occ, (r + o.radius) ^ 2 ≤ distSq3 p o.pos := by
  intro o ho
  have hx := List.any_eq_false.mp h o ho
  simp only [decide_eq_true_eq] at hx
  linarith [not_lt.mp hx]

/-- A successful retry loop returns a candidate that passed the collision
scan. -/
lemma tryPlace_sound (rng : ℕ → Draw) (occ : List Occ) (r : ℚ) :
    ∀ fuel n p n', tryPlace rng occ r fuel n = (some p, n') →
      collides occ p r = false := by
  intro fuel
  induction fuel with
  | zero =>
    intro n p n' h
    simp [tryPlace] at h
  | succ fuel ih =>
    intro n p n' h
    rw [tryPlace] at h
    by_cases hc : collides occ (candidatePos (rng n)) r
    · rw [if_pos hc] at h
      exact ih (n + 1) p n' h
    · rw [if_neg hc] at h
      obtain ⟨hp, _⟩ := Prod.mk.injEq _ _ _ _ ▸ h
      cases h
      simpa using hc

/-- If every one of the fuel draws collides, the retry loop gives up and
reports the advanced stream position. -/
lemma tryPlace_exhausts (rng : ℕ → Draw) (occ : List Occ) (r : ℚ) :
    ∀ fuel n, (∀ j, j < fuel → collides occ (candidatePos (rng (n + j))) r = true) →
      tryPlace rng occ r fuel n = (none, n + fuel) := by
  intro fuel
  induction fuel with
  | zero => intro n _; simp [tryPlace]
  | succ fuel ih =>
    intro n h
    have h0 : collides occ (candidatePos (rng n)) r = true := by
      have := h 0 (by omega)
      simpa using this
    rw [tryPlace, if_pos h0, ih (n + 1) (fun j hj => by
      have := h (j + 1) (by omega)
      rw [show n + 1 + j = n + (j + 1) by omega]
      exact this)]
    rw [show n + 1 + fuel = n + (fuel + 1) by omega]

/-- Placing one category preserves the pairwise-separation invariant and
the nonnegativity of all recorded radii. -/
lemma placeEntities_inv (rng : ℕ → Draw) (r : ℚ) (hr : 0 ≤ r) :
    ∀ cnt n occ, List.Pairwise SepOcc occ → (∀ o ∈ occ, 0 ≤ o.radius) →
      List.Pairwise SepOcc (placeEntities rng r cnt n occ).2.1
      ∧ (∀ o ∈ (placeEntities rng r cnt n occ).2.1, 0 ≤ o.radius) := by
  intro cnt
  induction cnt with
  | zero =>
    intro n occ h1 h2
    simpa [placeEntities] using ⟨h1, h2⟩
  | succ cnt ih =>
    intro n occ h1 h2
    rcases htp : tryPlace rng occ r 100 n with ⟨op, n'⟩
    cases op with
    | none =>
      have hrec := ih n' occ h1 h2
      simpa [placeEntities, htp] using hrec
    | some p =>
      have hsep := collides_false_sep (tryPlace_sound rng occ r 100 n p n' htp)
      have hpair : List.Pairwise SepOcc (occ ++ [⟨p, r⟩]) := by
        rw [List.pairwise_append]
        refine ⟨h1, by simp, ?_⟩
        intro a ha b hb
        simp only [List.mem_singleton] at hb
        subst hb
        show (a.radius + r) ^ 2 ≤ distSq3 a.pos p
        rw [distSq3_comm]
        calc (a.radius + r) ^ 2 = (r + a.radius) ^ 2 := by ring
          _ ≤ distSq3 p a.pos := hsep a ha
      have hrad : ∀ o ∈ occ ++ [⟨p, r⟩], 0 ≤ o.radius := by
        intro o ho
        rcases List.mem_append.mp ho with h | h
        · exact h2 o h
        · simp only [List.mem_singleton] at h
          subst h
          exact hr
      have hrec := ih n' (occ ++ [⟨p, r⟩]) hpair hrad
      simpa [placeEntities, htp] using hrec

/-- A category never produces more entities than requested. -/
lemma placeEntities_length (rng : ℕ → Draw) (r : ℚ) :
    ∀ cnt n occ, (placeEntities rng r cnt n occ).1.length ≤ cnt := by
  intro cnt
  induction cnt with
  | zero => intro n occ; simp [placeEntities]
  | succ cnt ih =>
    intro n occ
    rcases htp : tryPlace rng occ r 100 n with ⟨op, n'⟩
    cases op with
    | none =>
      have := ih n' occ
      simp only [placeEntities, htp]
      omega
    | some p =>
      have := ih n' (occ ++ [⟨p, r⟩])
      simp only [placeEntities, htp, List.length_cons]
      omega

/-- The occupancy record after one category is the previous record
followed by exactly that category's accepted positions with the category
radius. -/
lemma placeEntities_occ (rng : ℕ → Draw) (r : ℚ) :
    ∀ cnt n occ, (placeEntities rng r cnt n occ).2.1
      = occ ++ ((placeEntities rng r cnt n occ).1).map (fun p => Occ.mk p r) := by
  intro cnt
  induction cnt with
  | zero => intro n occ; simp [placeEntities]
  | succ cnt ih =>
    intro n occ
    rcases htp : tryPlace rng occ r 100 n with ⟨op, n'⟩
    cases op with
    | none =>
      have := ih n' occ
      simpa [placeEntities, htp] using this
    | some p =>
      have hrec := ih n' (occ ++ [⟨p, r⟩])
      simp only [placeEntities, htp, List.map_cons]
      rw [hrec, List.append_assoc]
      simp

/-- Running the category list preserves separation and radius
nonnegativity. -/
lemma runConfigs_inv (rng : ℕ → Draw) :
    ∀ cs n occ, (∀ c ∈ cs, 0 ≤ c.scale) →
      List.Pairwise SepOcc occ → (∀ o ∈ occ, 0 ≤ o.radius) →
      List.Pairwise SepOcc (runConfigs rng cs n occ).2.1
      ∧ (∀ o ∈ (runConfigs rng cs n occ).2.1, 0 ≤ o.radius) := by
  intro cs
  induction cs with
  | nil => intro n occ _ h1 h2; exact ⟨h1, h2⟩
  | cons c cs ih =>
    intro n occ hc h1 h2
    have hr : (0:ℚ) ≤ c.scale * (11/10) := by
      have := hc c (List.mem_cons_self c cs)
      nlinarith
    have hplace := placeEntities_inv rng (c.scale * (11/10)) hr c.count n occ h1 h2
    exact ih _ _ (fun c' h => hc c' (List.mem_cons_of_mem c h)) hplace.1 hplace.2

/-- Category outputs are bounded by the requested counts, pointwise along
the configuration list. -/
lemma runConfigs_lengths (rng : ℕ → Draw) :
    ∀ cs n occ, List.Forall₂ (fun (out : List Vec3) (c : OrnamentConfig) =>
      out.length ≤ c.count) (runConfigs rng cs n occ).1 cs := by
  intro cs
  induction cs with
  | nil => intro n occ; exact List.Forall₂.nil
  | cons c cs ih =>
    intro n occ
    exact List.Forall₂.cons (placeEntities_length rng _ c.count n occ) (ih _ _)

/-- The final occupancy record consists of precisely the accepted formed
positions of all categories, in order. -/
lemma runConfigs_occ (rng : ℕ → Draw) :
    ∀ cs n occ, ((runConfigs rng cs n occ).2.1).map Occ.pos
      = occ.map Occ.pos ++ ((runConfigs rng cs n occ).1).flatten := by
  intro cs
  induction cs with
  | nil => intro n occ; simp [runConfigs]
  | cons c cs ih =>
    intro n occ
    have hocc := placeEntities_occ rng (c.scale * (11/10)) c.count n occ
    simp only [runConfigs, List.flatten_cons]
    rw [ih, hocc, List.map_append, List.map_map]
    have hid : (Occ.pos ∘ fun p => Occ.mk p (c.scale * (11/10))) = id := by
      funext p
      rfl
    rw [hid, List.map_id, List.append_assoc]

/-- Transfer a pairwise relation along an implication that may use
membership of both elements. -/
lemma pairwise_imp_of_mem {α : Type} {R S : α → α → Prop} :
    ∀ {l : List α}, (∀ a ∈ l, ∀ b ∈ l, R a b → S a b) → l.Pairwise R → l.Pairwise S := by
  intro l
  induction l with
  | nil => intro _ _; exact List.Pairwise.nil
  | cons x xs ih =>
    intro h hp
    rw [List.pairwise_cons] at hp ⊢
    refine ⟨fun b hb => h x (by simp) b (by simp [hb]) (hp.1 b hb), ih ?_ hp.2⟩
    intro a ha b hb hr
    exact h a (by simp [ha]) b (by simp [hb]) hr

/-- Claim C6: over the fixed category sequence, every pair of accepted
formed positions across all categories is separated by at least the sum of
the two entries' radii (each radius being the category scale times 1.1);
the occupancy record consists of exactly the accepted positions of the
categories in order; each category yields at most its requested count; and
an entity all of whose 100 candidate attempts collide is dropped with the
retry loop reporting failure. -/
theorem ornament_layout_invariant (rng : ℕ → Draw) :
    List.Pairwise (fun a b : Occ =>
      ((a.radius : ℝ) + (b.radius : ℝ)) ≤ Real.sqrt ((distSq3 a.pos b.pos : ℚ) : ℝ))
      (ornamentOccupied rng)
    ∧ (ornamentOccupied rng).map Occ.pos = (ornamentGroups rng).flatten
    ∧ List.Forall₂ (fun (out : List Vec3) (c : OrnamentConfig) => out.length ≤ c.count)
        (ornamentGroups rng) ornamentConfigs
    ∧ (∀ (occ : List Occ) (r : ℚ) (n : ℕ),
        (∀ j, j < 100 → collides occ (candidatePos (rng (n + j))) r = true) →
        tryPlace rng occ r 100 n = (none, n + 100)) := by
  have hscale : ∀ c ∈ ornamentConfigs, (0:ℚ) ≤ c.scale := by
    intro c hc
    fin_cases hc <;> norm_num
  obtain ⟨hpair, hrad⟩ := runConfigs_inv rng ornamentConfigs 0 [] hscale
    List.Pairwise.nil (by simp)
  refine ⟨?_, ?_, runConfigs_lengths rng ornamentConfigs 0 [],
    fun occ r n h => tryPlace_exhausts rng occ r 100 n h⟩
  · refine pairwise_imp_of_mem ?_ hpair
    intro a ha b hb hab
    have hra := hrad a ha
    have hrb := hrad b hb
    have h3 : (0:ℝ) ≤ (a.radius : ℝ) + (b.radius : ℝ) := by
      have := add_nonneg hra hrb
      exact_mod_cast this
    have h2 : ((a.radius : ℝ) + (b.radius : ℝ)) ^ 2 ≤ ((distSq3 a.pos b.pos : ℚ) : ℝ) := by
      have : ((a.radius + b.radius : ℚ) : ℝ) ^ 2 ≤ ((distSq3 a.pos b.pos : ℚ) : ℝ) := by
        exact_mod_cast hab
      push_cast at this ⊢
      linarith
    calc (a.radius : ℝ) + (b.radius : ℝ)
        = Real.sqrt (((a.radius : ℝ) + (b.radius : ℝ)) ^ 2) := (Real.sqrt_sq h3).symm
      _ ≤ Real.sqrt ((distSq3 a.pos b.pos : ℚ) : ℝ) := Real.sqrt_le_sqrt h2
  · have := runConfigs_occ rng ornamentConfigs 0 []
    simpa [ornamentOccupied, ornamentGroups] using this

/-- Witness for C6: under the constant stream whose candidate always
lands on an already occupied point, all 100 attempts collide and the
entity is dropped. -/
theorem ornament_layout_invariant_check :
    (∀ j, j < 100 → collides blockOcc (candidatePos (constRng (0 + j))) 1 = true)
    ∧ tryPlace constRng blockOcc 1 100 0 = (none, 0 + 100) := by
  have hcol : ∀ j, j < 100 → collides blockOcc (candidatePos (constRng (0 + j))) 1 = true := by
    intro j hj
    show collides blockOcc (candidatePos constDraw) 1 = true
    norm_num [collides, blockOcc, candidatePos, constDraw, distSq3]
  exact ⟨hcol, (ornament_layout_invariant constRng).2.2.2 blockOcc 1 0 hcol⟩
